import Mathlib

/-!
Verification development for the `drum` repository (a two-axis motorized
sensor platform driven over a serial link).

The development shallowly embeds the relevant parts of the Python sources:

* `src/drum.py` — the protocol client `Vibrating_Plate` (here: `wait_for`,
  the `go_and_wait` idle-wait guard);
* `src/safe_drum.py` — the bounded motion controller `SafePlate`
  (here: `move_abs`, `safe_polar`, `safe_xy`, the helpers `squine`,
  `xy_to_polar`, `polar_to_xy`, and the module constants).

Python exceptions are modelled with an error type `PyErr`; the dynamic
resolution of free (non-local) names inside `safe_drum.py` function bodies is
modelled by `readGlobal`, which knows exactly the module-level globals that
file defines.  Stateful methods of `SafePlate` run in `PyM`, an
exception+state monad whose state carries the instance fields
(`_shape`, `_radial`, `_angular`) together with a trace of the externally
visible effects (primitive motor commands, debug prints).  Real-valued float
computations (`squine`, the coordinate conversions) are idealized over the
reals; reciprocals that can hit IEEE division by zero (`squine` evaluates
`1/cos`, `1/sin` under a suppressed `errstate`) are modelled in `ℝ≥0∞`, where
division by zero gives `∞`, matching the `inf` that numpy produces.
-/

/-! ### Module constants of safe_drum.py (lines 14-21) -/

/-- Number of angular steps that make a full circle (`ANG_MAX_STEPS = 720`). -/
def ANG_MAX_STEPS : ℤ := 720

/-- Initial angular steps (`ANG_MIN_STEPS = 0`). -/
def ANG_MIN_STEPS : ℤ := 0

/-- Number of radial steps from the center to a corner of the plate
(`RAD_MAX_STEPS = 10000`). -/
def RAD_MAX_STEPS : ℤ := 10000

/-- Number of radial steps from center to edge of the plate
(`RAD_MAX_SAFE = 7300`). -/
def RAD_MAX_SAFE : ℤ := 7300

/-- Initial radial steps (`RAD_MIN_STEPS = 0`). -/
def RAD_MIN_STEPS : ℤ := 0

/-! ### Python-level errors and name resolution -/

/-- The Python exceptions that the embedded code can raise.  `nameError n`
carries the unresolvable name (Python's `UnboundLocalError`, raised when a
local is read before assignment, is a subclass of `NameError` and is modelled
with the same constructor).  `recursionLimit` models exhaustion of the fuel
that bounds the embedding of Python's unbounded loops and recursion. -/
inductive PyErr where
  | nameError (n : String)
  | valueError
  | typeError
  | runtimeError
  | recursionLimit
  deriving DecidableEq

/-- Python values that can appear as module globals in this model. -/
inductive PyVal where
  | int (i : ℤ)
  | str (s : String)
  deriving DecidableEq

/-- Resolution of a free name read inside a function body of `safe_drum.py`.
The module defines exactly the five integer constants above (plus imported
modules and its own functions/class, none of which are read as bare data
names by the embedded bodies); any other name — in particular `r` and
`shape`, which the source reads — raises `NameError`. -/
def readGlobal (n : String) : Except PyErr PyVal :=
  if n = "ANG_MAX_STEPS" then .ok (.int ANG_MAX_STEPS)
  else if n = "ANG_MIN_STEPS" then .ok (.int ANG_MIN_STEPS)
  else if n = "RAD_MAX_STEPS" then .ok (.int RAD_MAX_STEPS)
  else if n = "RAD_MAX_SAFE" then .ok (.int RAD_MAX_SAFE)
  else if n = "RAD_MIN_STEPS" then .ok (.int RAD_MIN_STEPS)
  else .error (.nameError n)

/-- Python's `x is y` applied to the string data used by `safe_drum.py`
(`shape is "square"` and so on).  CPython interns these short source
literals, so the identity test behaves as equality here. -/
def pyIs (a b : PyVal) : Bool := a == b

/-- Python 3 `round` to an integer: round-half-to-even (banker's rounding),
which differs from Mathlib's `round` (half away up) only at exact halves. -/
def pyRound (q : ℚ) : ℤ :=
  let f : ℤ := ⌊q⌋
  if q - f = 1 / 2 then (if 2 ∣ f then f else f + 1) else round q

/-- Python truthiness of `not x` for an optional boolean (`not None` is
`True`); `safe_polar` can return `None` when the shape matches neither
branch, and `move_abs` negates that result. -/
def pyNot : Option Bool → Bool
  | none => true
  | some b => !b

/-! ### The wait_for reply matcher of drum.py (lines 69-81)

The device pushes newline-terminated **bytes** lines onto the reply queue;
`wait_for` is always called with a bytes pattern (`b"a_go"`, ...).  The
error-marker check on line 76 however compares the **str** literal `"ERR:"`
against `resp[0:4]`, which is bytes. -/

/-- A Python string-like value: either `str` or `bytes` text. -/
inductive PyTxt where
  | pstr (s : List Char)
  | pbytes (s : List Char)
  deriving DecidableEq

/-- Underlying characters of a `str`/`bytes` value. -/
def PyTxt.chars : PyTxt → List Char
  | .pstr s => s
  | .pbytes s => s

/-- Python `==` on string-likes: a `str` never equals a `bytes`, even with
identical characters; same-kind values compare by content. -/
def pyEqTxt : PyTxt → PyTxt → Bool
  | .pstr a, .pstr b => a == b
  | .pbytes a, .pbytes b => a == b
  | _, _ => false

/-- Python slicing `v[0:n]`, preserving the str/bytes kind. -/
def pyTake (v : PyTxt) (n : ℕ) : PyTxt :=
  match v with
  | .pstr s => .pstr (s.take n)
  | .pbytes s => .pbytes (s.take n)

/-- Whether `hay` begins with `pat`. -/
def leadsWith : List Char → List Char → Bool
  | _, [] => true
  | [], _ :: _ => false
  | a :: as, b :: bs => a == b && leadsWith as bs

/-- Helper for `pyFind`: scan `hay` keeping the current index. -/
def pyFindAux (pat : List Char) : List Char → ℤ → ℤ
  | [], i => if pat = [] then i else -1
  | c :: rest, i =>
      if leadsWith (c :: rest) pat then i else pyFindAux pat rest (i + 1)

/-- Python's `hay.find(pat)`: index of the first occurrence, `-1` if none. -/
def pyFind (hay pat : List Char) : ℤ := pyFindAux pat hay 0

/-- Embedding of `Vibrating_Plate.wait_for` (src/drum.py lines 69-81), run
against a finite list of already-queued reply lines.  Per the source: pull
the next line; if the str literal `"ERR:"` equals the first four elements of
the line, print it and raise `RuntimeError`; otherwise if the line starts
with the expected pattern (`resp.find(str) == 0`) return it; otherwise print
an unmatched notice and loop.  An exhausted queue models a wait that blocks
forever and is returned as `none`. -/
def wait_for (queue : List PyTxt) (pat : PyTxt) : Except PyErr (Option PyTxt) :=
  match queue with
  | [] => .ok none
  | resp :: rest =>
    if pyEqTxt (.pstr "ERR:".toList) (pyTake resp 4) then .error .runtimeError
    else if pyFind resp.chars pat.chars = 0 then .ok (some resp)
    else wait_for rest pat

/-! ### The safety envelope squine (safe_drum.py lines 422-447)

`theta = (angular/ANG_MAX_STEPS) * 2 * np.pi`;
`multiple = (0.91 + 0.09 * np.cos(2*theta)**2) * RAD_MAX_SAFE`;
`return multiple * np.min(np.abs([1/np.cos(theta), 1/np.sin(theta)]), axis=0)`.

The two reciprocals are float divisions performed under
`np.errstate(divide='ignore')`, so at angles where a trig factor vanishes
they produce IEEE `inf`; the absolute values therefore live naturally in
`ℝ≥0∞`, where `(ENNReal.ofReal 0)⁻¹ = ∞` reproduces exactly that behaviour. -/

/-- Magnitude of the float reciprocal `1/x` (that is, `np.abs(1/x)`), valued
in `ENNReal` so that `x = 0` yields `∞` as IEEE division (with numpy's divide
warning suppressed) does. -/
noncomputable def invAbs (x : ℝ) : ENNReal := (ENNReal.ofReal |x|)⁻¹

/-- Radians for an angular step count: `theta = (angular/ANG_MAX_STEPS) * 2 * np.pi`
(squine, line 443). -/
noncomputable def squineTheta (angular : ℤ) : ℝ :=
  ((angular : ℝ) / (ANG_MAX_STEPS : ℝ)) * (2 * Real.pi)

/-- Body of `squine` as a function of the angle in radians (lines 444-447). -/
noncomputable def squineR (theta : ℝ) : ENNReal :=
  ENNReal.ofReal ((0.91 + 0.09 * Real.cos (2 * theta) ^ 2) * (RAD_MAX_SAFE : ℝ)) *
    min (invAbs (Real.cos theta)) (invAbs (Real.sin theta))

/-- Embedding of `squine` (src/safe_drum.py lines 422-447): the absolute
maximum radial position for a given angular step position. -/
noncomputable def squine (angular : ℤ) : ENNReal := squineR (squineTheta angular)

/-! ### The SafePlate instance state and its effect monad -/

/-- Instance fields of a `SafePlate` object: `self._shape`, `self._radial`,
`self._angular` (set in `__init__`, lines 74-76). -/
structure Plate where
  shape : String
  radial : ℤ
  angular : ℤ
  deriving DecidableEq

/-- Externally visible effects of the motion controller.  `a_go`/`r_go` are
the primitive motor commands the underscore helpers send through the link
client; `debugPrint` records a `_debug_print` call; `persistRecord` is the
vocabulary for writing an on-disk position record — the specification
describes such a write, so the constructor exists in order to state whether
the code ever performs one (no embedded definition emits it). -/
inductive Effect where
  | debugPrint (msg : String)
  | a_go (steps : ℤ)
  | r_go (steps : ℤ)
  | persistRecord (radial angular : ℤ)
  deriving DecidableEq

/-- Whether an effect writes the persisted position record. -/
def Effect.isPersist : Effect → Bool
  | .persistRecord _ _ => true
  | _ => false

/-- Monad state for a running `SafePlate` method: the instance fields plus
the ordered trace of effects performed so far. -/
structure PySt where
  self : Plate
  trace : List Effect
  deriving DecidableEq

/-- Exception+state monad for the embedded Python methods: exceptions
propagate (`PyErr`), leaving the state — in particular the effects already
performed and the tracked position — as it was at the raise site. -/
abbrev PyM (α : Type) : Type := EStateM PyErr PySt α

/-- Record one externally visible effect. -/
def emit (e : Effect) : PyM Unit :=
  modify fun s => { s with trace := s.trace ++ [e] }

/-- Run a name lookup (or other fallible pure step) inside `PyM`. -/
def liftE {α : Type} : Except PyErr α → PyM α
  | .ok a => pure a
  | .error e => throw e

/-- Read a free global name inside a method body. -/
def readGlobalM (n : String) : PyM PyVal := liftE (readGlobal n)

/-- Coerce a Python value to an integer where the source applies
`int(round(.))` to it. -/
def pyValToInt : PyVal → PyM ℤ
  | .int i => pure i
  | .str _ => throw .typeError

/-! ### Loop and range helpers used by the move_abs embedding -/

/-- First index `k` (starting from the accumulator) within `fuel` more tries
at which `f` is true. -/
def firstTrueAux (f : ℕ → Bool) : ℕ → ℕ → Option ℕ
  | 0, _ => none
  | fuel + 1, k => if f k then some k else firstTrueAux f fuel (k + 1)

/-- First index `k < fuel` with `f k = true`, if any: the number of
iterations a `while not done: sleep` poll loop performs before its guard
lets it exit. -/
def firstTrue (f : ℕ → Bool) (fuel : ℕ) : Option ℕ := firstTrueAux f fuel 0

/-- Exit condition of the wait loop on line 188 of safe_drum.py:
`while not (self._radial_idle() or self._angular_idle())` keeps polling
while **neither** axis is idle, i.e. it stops — and `move_abs` declares the
move complete — as soon as **either** axis reports idle. -/
def moveAbsWaitStops (radialIdle angularIdle : Bool) : Bool :=
  radialIdle || angularIdle

/-- Exit condition of both wait loops of `Vibrating_Plate.go_and_wait`
(src/drum.py lines 194 and 197): `while not (self.angular_idle() and
self.radial_idle())` keeps polling until **both** axes report idle. -/
def goAndWaitStops (angularIdle radialIdle : Bool) : Bool :=
  angularIdle && radialIdle

/-- Embedding of `Vibrating_Plate.go_and_wait` (src/drum.py lines 193-198):
wait until both axes are idle, issue the nonzero go-commands, wait until
both axes are idle again, return the trace of issued commands.  Idle
readings for the two polling loops are supplied as streams of
(angular, radial) pairs; `none` models a wait whose guard never releases it
within `fuel` polls. -/
def go_and_wait (angular radial : ℤ) (idlePre idlePost : ℕ → Bool × Bool)
    (fuel : ℕ) : Option (List Effect) :=
  match firstTrue (fun k => goAndWaitStops (idlePre k).1 (idlePre k).2) fuel with
  | none => none
  | some _ =>
    let t1 : List Effect := if angular ≠ 0 then [.a_go angular] else []
    let t2 : List Effect := if radial ≠ 0 then [.r_go radial] else []
    match firstTrue (fun k => goAndWaitStops (idlePost k).1 (idlePost k).2) fuel with
    | none => none
    | some _ => some (t1 ++ t2)

/-- The integer list produced by
`np.linspace(a, b, np.abs(a-b)+1, dtype=int)` on integer endpoints
(safe_drum.py line 155): the `|a-b|+1` integers from `a` to `b` inclusive,
stepping by one towards `b`. -/
def intRange (a b : ℤ) : List ℤ :=
  if a ≤ b then (List.range (b - a).toNat.succ).map (fun k => a + k)
  else (List.range (a - b).toNat.succ).map (fun k => a - k)

/-- Minimum of a list of `ENNReal` values (`np.min` over a nonempty array;
the fold identity `⊤` is never the result on the nonempty lists produced by
`intRange`). -/
noncomputable def listMinE (l : List ENNReal) : ENNReal := l.foldr min ⊤

/-- Truncation `int(x)` of a nonnegative float: for the nonnegative finite
values `squine` produces this is the floor. -/
noncomputable def ennTruncInt (x : ENNReal) : ℤ := ⌊x.toReal⌋

/-! ### Coordinate conversion helpers (safe_drum.py lines 376-415) -/

/-- `np.arctan2(y, x)`: the argument of the complex number `x + y*i`, in
`(-π, π]`; `arctan2 0 0 = 0`, matching numpy. -/
noncomputable def arctan2 (y x : ℝ) : ℝ := Complex.arg ⟨x, y⟩

/-- Embedding of `xy_to_polar` (lines 376-396):
`r = np.sqrt(x**2 + y**2)`, `theta = np.degrees(np.arctan2(y, x))` —
note the angle is returned in **degrees**. -/
noncomputable def xy_to_polar (x y : ℝ) : ℝ × ℝ :=
  (Real.sqrt (x ^ 2 + y ^ 2), (180 / Real.pi) * arctan2 y x)

/-- Embedding of `polar_to_xy` (lines 398-415):
`x = r * np.cos(theta)`, `y = r * np.sin(theta)` — `np.cos`/`np.sin`
interpret `theta` in **radians**. -/
noncomputable def polar_to_xy (r theta : ℝ) : ℝ × ℝ :=
  (r * Real.cos theta, r * Real.sin theta)

/-! ### SafePlate.safe_polar and SafePlate.safe_xy (lines 322-372) -/

open Classical in
/-- Embedding of `SafePlate.safe_polar` (src/safe_drum.py lines 322-346).
Its first statement (line 341) is `radial = int(round(r))`: the name `r` is
neither a local of the function (the parameters are `self`, `radial`,
`angular`) nor a module global, so Python raises `NameError("r")` before
anything else in the body runs; line 343 would likewise fail on the
module-level name `shape` (the shape lives only in `self._shape`). -/
noncomputable def SafePlate.safe_polar (radial angular : ℚ) : PyM (Option Bool) := do
  -- line 341: radial = int(round(r))
  let r ← readGlobalM "r"
  let radial ← pyValToInt r
  -- line 342: angular = int(round(angular))
  let angular := pyRound angular
  -- line 343: if shape is "square":
  let shape ← readGlobalM "shape"
  if pyIs shape (.str "square") then
    -- line 344: return not (radial < RAD_MIN_STEPS or radial > squine(angular))
    return some (!(decide (radial < RAD_MIN_STEPS) ||
      decide (ENNReal.ofReal (radial : ℝ) > squine angular)))
  else if pyIs shape (.str "circle") then
    -- line 346: return not (radial < RAD_MIN_STEPS)
    return some (!decide (radial < RAD_MIN_STEPS))
  else
    -- any other shape falls off the end of the function, returning None
    return none

open Classical in
/-- Embedding of `SafePlate.safe_xy` (src/safe_drum.py lines 348-372).  Its
first statement (line 367) reads the unresolvable module-level name `shape`,
so every call raises `NameError("shape")`. -/
noncomputable def SafePlate.safe_xy (x y : ℚ) : PyM (Option Bool) := do
  -- line 367: if shape is "square":
  let shape ← readGlobalM "shape"
  if pyIs shape (.str "square") then
    -- lines 368-369: checks = [(pos < -RAD_MAX_SAFE or pos > RAD_MAX_SAFE)
    --                          for pos in [x, y]]; return not any(checks)
    let checks := [x, y].map (fun pos =>
      decide (pos < -(RAD_MAX_SAFE : ℚ)) || decide (pos > (RAD_MAX_SAFE : ℚ)))
    return some (!checks.any id)
  else if pyIs shape (.str "circle") then
    -- lines 370-372: r, theta = xy_to_polar(x, y); return r <= RAD_MAX_SAFE
    return some (decide ((xy_to_polar (x : ℝ) (y : ℝ)).1 ≤ (RAD_MAX_SAFE : ℝ)))
  else
    return none

/-! ### SafePlate.move_abs (safe_drum.py lines 109-194)

The underscore device helpers these lines call (`_debug_print`,
`_angular_go`, `_radial_go`, `_angular_idle`, `_radial_idle`) are modelled
as the primitive effects and idle-oracle reads the code treats them as.
(On the actual class even these attribute lookups would fail — the
superclass defines the names without the leading underscore — but every
property proved below is decided at line 137, before the first such call
could run.)  `recurse` stands for the recursive `self.rad_move_abs` call on
line 168 and is tied at the fuelled level below; `loopFuel` bounds the
unbounded `while` polling loops. -/

open Classical in
/-- Body of `SafePlate.move_abs`, lines 134-194 of src/safe_drum.py,
statement by statement. -/
noncomputable def SafePlate.move_absBody (recurse : ℤ → ℤ → PyM Unit)
    (rad_steps ang_steps : ℤ) (radIdle angIdle : ℕ → Bool) (loopFuel : ℕ) :
    PyM Unit := do
  -- lines 135-136: rad_steps = int(rad_steps); ang_steps = int(ang_steps)
  -- (the arguments are already integers here).
  -- line 137: if not self.safe_polar(rad_steps, ang_steps/2):  — true
  -- division; the call raises NameError("r") from safe_polar's first line.
  let ok ← SafePlate.safe_polar (rad_steps : ℚ) ((ang_steps : ℚ) / 2)
  if pyNot ok then
    -- line 138: if shape is "square":  — `shape` is unresolvable here too
    let shape ← readGlobalM "shape"
    if pyIs shape (.str "square") then
      -- lines 139-140 (the ValueError message interpolates rad_steps,
      -- squine(ang_steps) and ang_steps)
      throw .valueError
    else if pyIs shape (.str "circle") then
      -- lines 141-143
      throw .valueError
    -- with any other shape Python falls through without raising
  -- line 146: ang_delta = (ang_steps % ANG_MAX_STEPS) - self._angular
  let st ← get
  let ang_delta := ang_steps % ANG_MAX_STEPS - st.self.angular
  -- line 148: if shape is "square":
  let shape ← readGlobalM "shape"
  -- The square block (lines 148-171) binds the locals rad_delta and
  -- ang_first; on every other path they stay unbound (`none`) and reading
  -- them below raises UnboundLocalError, a NameError.
  let sqLocals ← (
    if pyIs shape (.str "square") then do
      -- lines 150-151 initialize retreat/ang_first; their final values are
      -- the conditions on lines 157 and 160:
      -- line 155: safe_dists = squine(np.linspace(self._angular, ang_steps,
      --                                np.abs(self._angular-ang_steps)+1, dtype=int))
      let safe_dists := (intRange st.self.angular ang_steps).map squine
      -- line 156: safe_dist = np.min(safe_dists)
      let safe_dist := listMinE safe_dists
      -- lines 157-158: if (ang_delta != 0 and self._radial > safe_dist)
      let retreat := decide (ang_delta ≠ 0) &&
        decide (ENNReal.ofReal (st.self.radial : ℝ) > safe_dist)
      -- lines 160-161: if (rad_steps > RAD_MAX_SAFE)
      let ang_first := decide (rad_steps > RAD_MAX_SAFE)
      -- lines 163-168
      if retreat then do
        emit (.debugPrint "Retreating radius for rotation")
        -- line 168: self.rad_move_abs(safe_dist), which per lines 209-218 is
        -- self.move_abs(int(safe_dist), self._angular); recursion costs fuel.
        recurse (ennTruncInt safe_dist) st.self.angular
      -- line 171: rad_delta = rad_steps - self._radial  (read again, since
      -- the retreat just moved the radial axis)
      let st2 ← get
      pure (some (rad_steps - st2.self.radial), some ang_first)
    else
      pure ((none : Option ℤ), (none : Option Bool)))
  -- line 173: self._debug_print("Moving to %d, %d" % (self._radial +
  -- rad_delta, self._angular + ang_delta)) — evaluating rad_delta raises
  -- UnboundLocalError when the square block did not run.
  let rad_delta ← match sqLocals.1 with
    | some d => pure d
    | none => throw (.nameError "rad_delta")
  emit (.debugPrint "Moving to target")
  -- lines 177-183
  if ang_delta ≠ 0 then do
    -- line 178: self._angular_go(ang_delta)
    emit (.a_go ang_delta)
    -- line 180: if ang_first:  (unbound outside the square block)
    let ang_first ← match sqLocals.2 with
      | some b => pure b
      | none => throw (.nameError "ang_first")
    if ang_first then do
      emit (.debugPrint "Rotating Angle First")
      -- lines 182-183: while not self._angular_idle(): time.sleep(0.1)
      match firstTrue angIdle loopFuel with
      | some _ => pure ()
      | none => throw .recursionLimit
  -- lines 184-185: if rad_delta != 0: self._radial_go(rad_delta)
  if rad_delta ≠ 0 then
    emit (.r_go rad_delta)
  -- lines 187-189: while not (self._radial_idle() or self._angular_idle()):
  --                    time.sleep(0.1)
  match firstTrue (fun k => moveAbsWaitStops (radIdle k) (angIdle k)) loopFuel with
  | some _ => pure ()
  | none => throw .recursionLimit
  -- lines 191-193: self._angular += ang_delta; self._radial += rad_delta
  modify fun s => { s with self := { s.self with
    angular := s.self.angular + ang_delta,
    radial := s.self.radial + rad_delta } }
  -- line 194: self._debug_print("Final Position: %d, %d" % ...)
  emit (.debugPrint "Final Position")

/-- Fuelled tying of the `rad_move_abs` recursion in `move_absBody`. -/
noncomputable def SafePlate.move_absFuel :
    ℕ → ℤ → ℤ → (ℕ → Bool) → (ℕ → Bool) → PyM Unit
  | 0, _, _, _, _ => throw .recursionLimit
  | n + 1, rad, ang, radIdle, angIdle =>
      SafePlate.move_absBody
        (fun r a => SafePlate.move_absFuel n r a radIdle angIdle)
        rad ang radIdle angIdle (n + 1)

/-- Embedding of `SafePlate.move_abs` (src/safe_drum.py lines 109-194).
`fuel` bounds the retreat recursion and the polling loops; `radIdle` and
`angIdle` supply each polling loop's successive idle readings. -/
noncomputable def SafePlate.move_abs (fuel : ℕ) (rad_steps ang_steps : ℤ)
    (radIdle angIdle : ℕ → Bool) : PyM Unit :=
  SafePlate.move_absBody
    (fun r a => SafePlate.move_absFuel fuel r a radIdle angIdle)
    rad_steps ang_steps radIdle angIdle fuel

/-- The commit step of `move_abs` in isolation (src/safe_drum.py lines
191-194), everything the method does after motion stops: add the issued
deltas to the in-memory `_angular`/`_radial` fields and print the final
position.  No on-disk record of the position is written here (nor anywhere
else in the repository). -/
def move_abs_commit (self : Plate) (rad_delta ang_delta : ℤ) :
    Plate × List Effect :=
  ({ self with angular := self.angular + ang_delta,
               radial := self.radial + rad_delta },
   [Effect.debugPrint "Final Position"])

open Classical in
/-- Comparison model for the claim analysis: the body of `safe_polar`
(lines 341-346) with its two `NameError` slips repaired the way the
function's docstring and `move_abs`'s error messages intend — `r` denotes
the `radial` parameter and `shape` denotes the shape stored on the
instance.  Even so repaired, the `"circle"` branch checks only
`radial < RAD_MIN_STEPS`: it never compares against `RAD_MAX_SAFE`. -/
noncomputable def safe_polar_intended (shape : String) (radial angular : ℚ) :
    Option Bool :=
  let radialI := pyRound radial
  let angularI := pyRound angular
  if shape = "square" then
    some (!(decide (radialI < RAD_MIN_STEPS) ||
      decide (ENNReal.ofReal (radialI : ℝ) > squine angularI)))
  else if shape = "circle" then
    some (!decide (radialI < RAD_MIN_STEPS))
  else
    none

/-! ### Claim theorems -/

/-- C1: for a current position (0,0) and the unsafe target (12000, 0) on a
square platform, `move_abs` raises before any primitive motor command is
issued and leaves the tracked position (and the whole state) unchanged —
but the exception is `NameError("r")` from `safe_polar`'s first line, not
the `ValueError` the claim (and `move_abs`'s own docstring) promises. -/
theorem move_abs_unsafe_target_rejected_before_command :
    (SafePlate.move_abs 1000 12000 0 (fun _ => true) (fun _ => true)).run
      ⟨⟨"square", 0, 0⟩, []⟩ =
      .error (.nameError "r") ⟨⟨"square", 0, 0⟩, []⟩ := by
  rfl

/-- C2: for every shape string, every pair of integer arguments, every idle
oracle, every fuel and every starting state, `move_abs` raises
`NameError("r")` (from `safe_polar` reading the undefined local `r`) before
any primitive motor command, leaving the state untouched; `safe_polar`
itself always raises `NameError("r")`, and `safe_xy` always raises
`NameError("shape")` (the module-level name `shape` does not exist — the
shape is stored only as `self._shape`).  Hence no move request can ever
complete through the safe interface. -/
theorem safe_interface_always_nameError :
    (∀ (fuel : ℕ) (rad ang : ℤ) (fr fa : ℕ → Bool) (st : PySt),
      (SafePlate.move_abs fuel rad ang fr fa).run st =
        .error (.nameError "r") st) ∧
    (∀ (radial angular : ℚ) (st : PySt),
      (SafePlate.safe_polar radial angular).run st =
        .error (.nameError "r") st) ∧
    (∀ (x y : ℚ) (st : PySt),
      (SafePlate.safe_xy x y).run st = .error (.nameError "shape") st) :=
  ⟨fun _ _ _ _ _ _ => rfl, fun _ _ _ => rfl, fun _ _ _ => rfl⟩

/-- C3: the wait loop of `move_abs` (safe_drum.py line 188) stops — and the
move is declared complete — as soon as **either** axis reports idle: with
the radial axis idle and the angular axis never idle its guard releases the
loop at the very first poll, whereas the corresponding guard of
`Vibrating_Plate.go_and_wait` (drum.py lines 194/197) keeps polling (and
`go_and_wait` itself never returns) in the same situation.  This refutes
the claim that `move_abs` keeps polling until BOTH axes independently
report idle. -/
theorem move_abs_wait_declares_done_one_axis :
    moveAbsWaitStops true false = true ∧
    firstTrue (fun _ => moveAbsWaitStops true false) 5 = some 0 ∧
    goAndWaitStops false true = false ∧
    firstTrue (fun _ => goAndWaitStops false true) 5 = none ∧
    go_and_wait 10 0 (fun _ => (true, true)) (fun _ => (false, true)) 5 =
      none := by
  decide

/-- C4: from current position (9500, 0) on a square platform to the target
(9500, 180 steps = 90 degrees), `move_abs` issues no retreat, no idle
confirmation and no rotation at all: the call dies at line 137 with
`NameError("r")` raised inside `safe_polar`, before the retreat logic of
lines 148-185 can run, with an empty command trace and the position
unchanged. -/
theorem move_abs_retreat_path_unreachable :
    (SafePlate.move_abs 1000 9500 180 (fun _ => true) (fun _ => true)).run
      ⟨⟨"square", 9500, 0⟩, []⟩ =
      .error (.nameError "r") ⟨⟨"square", 9500, 0⟩, []⟩ := by
  rfl

/-- C5: on a circular platform, `safe_polar` does not implement the claimed
bound "true iff `r ≤ RAD_MAX_SAFE` (and `r ≥ RAD_MIN_STEPS`)".  As written
it raises `NameError("r")` on every call; and even with its two name slips
repaired as its docstring intends, the circle branch (line 346) checks only
`radial < RAD_MIN_STEPS`, so it returns `True` for the radius 9000, which
lies inside `[0, RAD_MAX_STEPS]` but strictly beyond `RAD_MAX_SAFE = 7300`. -/
theorem safe_polar_circle_upper_bound_missing :
    (SafePlate.safe_polar 9000 0).run ⟨⟨"circle", 0, 0⟩, []⟩ =
      .error (.nameError "r") ⟨⟨"circle", 0, 0⟩, []⟩ ∧
    safe_polar_intended "circle" 9000 0 = some true ∧
    RAD_MAX_SAFE < 9000 ∧ (9000 : ℤ) ≤ RAD_MAX_STEPS := by
  refine ⟨rfl, ?_, by decide, by decide⟩
  simp [safe_polar_intended, pyRound, RAD_MIN_STEPS]

/-- C9: during `wait_for`, a queued line that begins with the error marker
does **not** abort the wait: line 76 of drum.py compares the `str` literal
`"ERR:"` against `resp[0:4]`, which is `bytes`, and in Python 3 a str never
equals a bytes — so the `ERR:` line is discarded as a prefix mismatch and
the wait returns the next matching line instead of raising `RuntimeError`.
(The first conjunct isolates the root cause: the four characters do match,
but str-vs-bytes equality is false.) -/
theorem wait_for_err_line_not_raised :
    pyEqTxt (.pstr "ERR:".toList) (.pbytes "ERR:".toList) = false ∧
    wait_for [.pbytes "ERR: limit fault".toList, .pbytes "a_go 100".toList]
      (.pbytes "a_go".toList) = .ok (some (.pbytes "a_go 100".toList)) := by
  exact ⟨rfl, rfl⟩

/-- C10 (counterexample): a completed `move_abs` call does not end by
persisting the position: its final step (lines 191-194) at the concrete
state (radial 0, angular 0) with issued deltas (100, 0) only adds the
deltas to the in-memory fields and prints — the resulting effect list is a
single debug print and contains no `persistRecord` write. -/
theorem move_abs_commit_no_persist_at_input :
    move_abs_commit ⟨"square", 0, 0⟩ 100 0 =
      (⟨"square", 100, 0⟩, [Effect.debugPrint "Final Position"]) ∧
    ((move_abs_commit ⟨"square", 0, 0⟩ 100 0).2.all
      fun e => !e.isPersist) = true := by
  exact ⟨rfl, rfl⟩

/-- C10 (amended): after a move, `move_abs` only updates the in-memory
`_radial`/`_angular` fields by the issued deltas and prints; no on-disk
position record is ever written — its commit step emits exactly one debug
print and no persist effect, and in fact every `move_abs` call dies with
`NameError("r")` before emitting any effect at all, so no run of the code
ever performs a `persistRecord` write. -/
theorem move_abs_updates_memory_only :
    (∀ (self : Plate) (rad_delta ang_delta : ℤ),
      move_abs_commit self rad_delta ang_delta =
        ({ self with angular := self.angular + ang_delta,
                     radial := self.radial + rad_delta },
         [Effect.debugPrint "Final Position"]) ∧
      ((move_abs_commit self rad_delta ang_delta).2.all
        fun e => !e.isPersist) = true) ∧
    (∀ (fuel : ℕ) (rad ang : ℤ) (fr fa : ℕ → Bool) (st : PySt),
      (SafePlate.move_abs fuel rad ang fr fa).run st =
        .error (.nameError "r") st) :=
  ⟨fun _ _ _ => ⟨rfl, rfl⟩, fun _ _ _ _ _ _ => rfl⟩

/-! ### Analysis of the squine envelope -/

/-- Written from the C6 claim wording: the raw square-edge distance along
the ray at angle `θ = (a / ANG_MAX_STEPS) * 2π`, namely
`RAD_MAX_SAFE * min(|1/cos θ|, |1/sin θ|)`, discounted by the factor
`0.91 + 0.09 * cos(2θ)^2`. -/
noncomputable def squineSpec (a : ℤ) : ENNReal :=
  ENNReal.ofReal
      (0.91 + 0.09 *
        Real.cos (2 * (((a : ℝ) / (ANG_MAX_STEPS : ℝ)) * (2 * Real.pi))) ^ 2) *
    ENNReal.ofReal (RAD_MAX_SAFE : ℝ) *
    min (invAbs (Real.cos (((a : ℝ) / (ANG_MAX_STEPS : ℝ)) * (2 * Real.pi))))
        (invAbs (Real.sin (((a : ℝ) / (ANG_MAX_STEPS : ℝ)) * (2 * Real.pi))))

/-- In `ENNReal`, the minimum of two inverses is the inverse of the maximum. -/
lemma min_inv_inv_eq (u v : ENNReal) : min u⁻¹ v⁻¹ = (max u v)⁻¹ := by
  rcases le_total u v with h | h
  · rw [max_eq_right h, min_eq_right (ENNReal.inv_le_inv.mpr h)]
  · rw [max_eq_left h, min_eq_left (ENNReal.inv_le_inv.mpr h)]

/-- The minimum of the two reciprocal magnitudes in `squine` is the inverse
of the larger trig magnitude. -/
lemma invAbs_min_eq (c s : ℝ) :
    min (invAbs c) (invAbs s) = (ENNReal.ofReal (max |c| |s|))⁻¹ := by
  unfold invAbs
  rw [min_inv_inv_eq]
  congr 1
  rcases le_total |c| |s| with h | h
  · rw [max_eq_right h, max_eq_right (ENNReal.ofReal_le_ofReal h)]
  · rw [max_eq_left h, max_eq_left (ENNReal.ofReal_le_ofReal h)]

/-- The larger of `|cos θ|`, `|sin θ|` is at most one. -/
lemma max_cos_sin_le_one (θ : ℝ) :
    max |Real.cos θ| |Real.sin θ| ≤ 1 :=
  max_le (Real.abs_cos_le_one θ) (Real.abs_sin_le_one θ)

/-- The square of the larger trig magnitude is at least one half. -/
lemma half_le_max_cos_sin_sq (θ : ℝ) :
    1 / 2 ≤ (max |Real.cos θ| |Real.sin θ|) ^ 2 := by
  have pyth := Real.sin_sq_add_cos_sq θ
  have hc : Real.cos θ ^ 2 ≤ (max |Real.cos θ| |Real.sin θ|) ^ 2 := by
    rw [← sq_abs (Real.cos θ)]
    exact pow_le_pow_left (abs_nonneg _) (le_max_left _ _) 2
  have hs : Real.sin θ ^ 2 ≤ (max |Real.cos θ| |Real.sin θ|) ^ 2 := by
    rw [← sq_abs (Real.sin θ)]
    exact pow_le_pow_left (abs_nonneg _) (le_max_right _ _) 2
  linarith

/-- The larger trig magnitude is strictly positive. -/
lemma max_cos_sin_pos (θ : ℝ) : 0 < max |Real.cos θ| |Real.sin θ| := by
  have h2 := half_le_max_cos_sin_sq θ
  have h0 : 0 ≤ max |Real.cos θ| |Real.sin θ| :=
    le_trans (abs_nonneg _) (le_max_left _ _)
  rcases lt_or_eq_of_le h0 with h | h
  · exact h
  · exfalso; rw [← h] at h2; norm_num at h2

/-- The squared discount argument in terms of the larger trig magnitude:
`cos(2θ)² = (2M² − 1)²` where `M = max(|cos θ|, |sin θ|)`. -/
lemma cos_two_sq_eq_max (θ : ℝ) :
    Real.cos (2 * θ) ^ 2 = (2 * (max |Real.cos θ| |Real.sin θ|) ^ 2 - 1) ^ 2 := by
  have pyth := Real.sin_sq_add_cos_sq θ
  rw [Real.cos_two_mul]
  rcases le_total |Real.cos θ| |Real.sin θ| with h | h
  · rw [max_eq_right h, sq_abs]
    linear_combination (4 * Real.cos θ ^ 2 - 4 * Real.sin θ ^ 2) * pyth
  · rw [max_eq_left h, sq_abs]

/-- Reduction of `squineR` to a single real quotient: the `∞`-hiding
minimum collapses to division by the (strictly positive) larger trig
magnitude. -/
lemma squineR_eq_div (θ : ℝ) :
    squineR θ = ENNReal.ofReal
      ((0.91 + 0.09 * Real.cos (2 * θ) ^ 2) * (RAD_MAX_SAFE : ℝ) /
        max |Real.cos θ| |Real.sin θ|) := by
  have hR : (0 : ℝ) ≤ (RAD_MAX_SAFE : ℝ) := by norm_num [RAD_MAX_SAFE]
  unfold squineR
  rw [invAbs_min_eq, ← ENNReal.ofReal_inv_of_pos (max_cos_sin_pos θ),
    ← ENNReal.ofReal_mul (mul_nonneg (by positivity) hR), div_eq_mul_inv]

/-- On `[1/√2, 1]` the discount polynomial dominates the identity:
`M ≤ 0.91 + 0.09(2M² − 1)²`. -/
lemma poly_lower (M : ℝ) (h0 : 0 < M) (h1 : M ≤ 1) (h2 : 1 / 2 ≤ M ^ 2) :
    M ≤ 0.91 + 0.09 * (2 * M ^ 2 - 1) ^ 2 := by
  have e1 : 0 ≤ 1 - M := by linarith
  have hM2 : M ^ 2 ≤ 1 := by nlinarith
  have e2 : 0 ≤ 1 - 0.36 * M ^ 2 * (M + 1) := by
    have h3 : M ^ 2 * (M + 1) ≤ 1 * 2 :=
      mul_le_mul hM2 (by linarith) (by positivity) (by norm_num)
    linarith
  nlinarith [mul_nonneg e1 e2]

/-- On `[1/√2, 1]` the discount polynomial is dominated by `0.91·√2·M`. -/
lemma poly_upper (M : ℝ) (h0 : 0 < M) (h1 : M ≤ 1) (h2 : 1 / 2 ≤ M ^ 2) :
    0.91 + 0.09 * (2 * M ^ 2 - 1) ^ 2 ≤ 0.91 * Real.sqrt 2 * M := by
  have hs2 : Real.sqrt 2 ^ 2 = 2 := Real.sq_sqrt (by norm_num)
  have hs0 : 0 ≤ Real.sqrt 2 := Real.sqrt_nonneg 2
  have hs15 : Real.sqrt 2 ≤ 1.5 := by
    nlinarith [sq_nonneg (Real.sqrt 2 - 1.5)]
  have hu2 : (Real.sqrt 2 * M) ^ 2 = 2 * M ^ 2 := by
    rw [mul_pow, hs2]
  have hu0 : 0 ≤ Real.sqrt 2 * M := mul_nonneg hs0 h0.le
  have hu1 : 1 ≤ Real.sqrt 2 * M := by nlinarith
  have huU : Real.sqrt 2 * M ≤ 1.5 := by
    have : Real.sqrt 2 * M ≤ Real.sqrt 2 := mul_le_of_le_one_right hs0 h1
    linarith
  have e1 : 0 ≤ Real.sqrt 2 * M - 1 := by linarith
  have e2 : 0 ≤ 0.91 - 0.09 * (Real.sqrt 2 * M - 1) * (Real.sqrt 2 * M + 1) ^ 2 := by
    have a1 : Real.sqrt 2 * M - 1 ≤ 0.5 := by linarith
    have a2 : (Real.sqrt 2 * M + 1) ^ 2 ≤ 6.25 := by nlinarith
    have a3 : (Real.sqrt 2 * M - 1) * (Real.sqrt 2 * M + 1) ^ 2 ≤ 0.5 * 6.25 :=
      mul_le_mul a1 a2 (by positivity) (by norm_num)
    linarith
  have key : 0.91 + 0.09 * ((Real.sqrt 2 * M) ^ 2 - 1) ^ 2 ≤
      0.91 * (Real.sqrt 2 * M) := by nlinarith [mul_nonneg e1 e2]
  rw [hu2] at key
  linarith [key]

/-- Global lower bound of the envelope body: `squineR θ` is at least
`RAD_MAX_SAFE` at every angle. -/
lemma squineR_lower (θ : ℝ) :
    ENNReal.ofReal (RAD_MAX_SAFE : ℝ) ≤ squineR θ := by
  rw [squineR_eq_div]
  apply ENNReal.ofReal_le_ofReal
  rw [le_div_iff (max_cos_sin_pos θ)]
  have key := poly_lower (max |Real.cos θ| |Real.sin θ|) (max_cos_sin_pos θ)
    (max_cos_sin_le_one θ) (half_le_max_cos_sin_sq θ)
  rw [cos_two_sq_eq_max θ]
  have hR : (RAD_MAX_SAFE : ℝ) = 7300 := by norm_num [RAD_MAX_SAFE]
  rw [hR]
  nlinarith [key]

/-- Global upper bound of the envelope body: `squineR θ` is at most
`0.91·√2·RAD_MAX_SAFE` at every angle. -/
lemma squineR_upper (θ : ℝ) :
    squineR θ ≤ ENNReal.ofReal (0.91 * Real.sqrt 2 * (RAD_MAX_SAFE : ℝ)) := by
  rw [squineR_eq_div]
  apply ENNReal.ofReal_le_ofReal
  rw [div_le_iff (max_cos_sin_pos θ)]
  have key := poly_upper (max |Real.cos θ| |Real.sin θ|) (max_cos_sin_pos θ)
    (max_cos_sin_le_one θ) (half_le_max_cos_sin_sq θ)
  rw [cos_two_sq_eq_max θ]
  have hR : (RAD_MAX_SAFE : ℝ) = 7300 := by norm_num [RAD_MAX_SAFE]
  rw [hR]
  nlinarith [key]

/-- The step-to-radian conversion sends step 0 to angle 0. -/
lemma squineTheta_zero : squineTheta 0 = 0 := by
  simp [squineTheta]

/-- The step-to-radian conversion sends the diagonal step count 90 to `π/4`. -/
lemma squineTheta_ninety : squineTheta 90 = Real.pi / 4 := by
  unfold squineTheta ANG_MAX_STEPS
  push_cast
  ring

/-- Value of the envelope at the axis-aligned angle 0: exactly
`RAD_MAX_SAFE` (the discount factor is 1 there, and `min(1, ∞) = 1`). -/
lemma squine_zero : squine 0 = ENNReal.ofReal (RAD_MAX_SAFE : ℝ) := by
  unfold squine
  rw [squineTheta_zero]
  unfold squineR invAbs
  rw [mul_zero, Real.cos_zero, Real.sin_zero]
  norm_num

/-- Value of the envelope at the diagonal step count 90 (angle `π/4`):
exactly `0.91·√2·RAD_MAX_SAFE`. -/
lemma squine_ninety :
    squine 90 = ENNReal.ofReal (0.91 * Real.sqrt 2 * (RAD_MAX_SAFE : ℝ)) := by
  have hs2 : Real.sqrt 2 * Real.sqrt 2 = 2 := Real.mul_self_sqrt (by norm_num)
  have hspos : 0 < Real.sqrt 2 := Real.sqrt_pos.mpr (by norm_num)
  unfold squine
  rw [squineTheta_ninety]
  unfold squineR invAbs
  have hinv : (Real.sqrt 2 / 2)⁻¹ = Real.sqrt 2 := by
    field_simp
  have hA : (0 : ℝ) ≤ (0.91 + 0.09 * (0:ℝ) ^ 2) * (RAD_MAX_SAFE : ℝ) := by
    norm_num [RAD_MAX_SAFE]
  rw [show 2 * (Real.pi / 4) = Real.pi / 2 by ring, Real.cos_pi_div_two,
    Real.cos_pi_div_four, Real.sin_pi_div_four, min_self,
    abs_of_pos (by positivity : (0:ℝ) < Real.sqrt 2 / 2),
    ← ENNReal.ofReal_inv_of_pos (by positivity), hinv,
    ← ENNReal.ofReal_mul hA]
  congr 1
  norm_num [RAD_MAX_SAFE]
  ring

/-- A quarter turn in radians leaves the envelope body unchanged. -/
lemma squineR_quarter (θ : ℝ) : squineR (θ + Real.pi / 2) = squineR θ := by
  unfold squineR
  rw [Real.cos_add_pi_div_two, Real.sin_add_pi_div_two,
    show 2 * (θ + Real.pi / 2) = 2 * θ + Real.pi by ring, Real.cos_add_pi,
    show invAbs (-Real.sin θ) = invAbs (Real.sin θ) by unfold invAbs; rw [abs_neg],
    min_comm, neg_sq]

/-- Reflection in radians leaves the envelope body unchanged. -/
lemma squineR_reflect (θ : ℝ) : squineR (-θ) = squineR θ := by
  unfold squineR
  rw [Real.cos_neg, Real.sin_neg,
    show 2 * -θ = -(2 * θ) by ring, Real.cos_neg,
    show invAbs (-Real.sin θ) = invAbs (Real.sin θ) by unfold invAbs; rw [abs_neg]]

/-- Quarter-turn periodicity at step level: 180 angular steps are a quarter
turn (`ANG_MAX_STEPS = 720` steps per full turn). -/
lemma squine_quarter_step (a : ℤ) : squine (a + 180) = squine a := by
  unfold squine
  have h : squineTheta (a + 180) = squineTheta a + Real.pi / 2 := by
    unfold squineTheta ANG_MAX_STEPS
    push_cast
    ring
  rw [h, squineR_quarter]

/-- Reflection at step level. -/
lemma squine_reflect_step (a : ℤ) : squine (-a) = squine a := by
  unfold squine
  have h : squineTheta (-a) = -squineTheta a := by
    unfold squineTheta
    push_cast
    ring
  rw [h, squineR_reflect]

/-- C6: for every integer angular step `a`, `squine a` equals the claim's
formula `(0.91 + 0.09·cos(2θ)²) · RAD_MAX_SAFE · min(|1/cos θ|, |1/sin θ|)`
with `θ = (a / ANG_MAX_STEPS) · 2π`; and the discount factor
`0.91 + 0.09·cos(2θ)²` is exactly 1 at the axis-aligned step 0 and exactly
0.91 at the diagonal step 90. -/
theorem squine_matches_spec_formula :
    (∀ a : ℤ, squine a = squineSpec a) ∧
    0.91 + 0.09 * Real.cos (2 * squineTheta 0) ^ 2 = 1 ∧
    0.91 + 0.09 * Real.cos (2 * squineTheta 90) ^ 2 = 0.91 := by
  refine ⟨fun a => ?_, ?_, ?_⟩
  · unfold squine squineR squineSpec squineTheta
    rw [ENNReal.ofReal_mul (by positivity)]
  · rw [squineTheta_zero]
    norm_num
  · rw [squineTheta_ninety, show 2 * (Real.pi / 4) = Real.pi / 2 by ring,
      Real.cos_pi_div_two]
    norm_num

/-- C7 (counterexample): the envelope is strictly larger at the diagonal
step 90 than at the axis-aligned step 0, so `squine` does **not** attain its
maximum at axis-aligned angles (nor its minimum at the diagonal), contrary
to the claim. -/
theorem squine_not_max_at_axis : squine 0 < squine 90 := by
  rw [squine_zero, squine_ninety]
  have h : Real.sqrt 2 * Real.sqrt 2 = 2 := Real.mul_self_sqrt (by norm_num)
  have h0 : 0 ≤ Real.sqrt 2 := Real.sqrt_nonneg 2
  have hR : (RAD_MAX_SAFE : ℝ) = 7300 := by norm_num [RAD_MAX_SAFE]
  rw [hR, ENNReal.ofReal_lt_ofReal_iff (by nlinarith)]
  nlinarith

/-- C7 (amended): `squine` is periodic with period one quarter turn
(180 steps) and is reflected about each axis (`squine (-a) = squine a`); it
attains the value `RAD_MAX_SAFE` at the axis-aligned step 0 and the value
`0.91·√2·RAD_MAX_SAFE` at the diagonal step 90, and — with the claim's roles
of minimum and maximum swapped — the axis-aligned value is its global
minimum and the diagonal value its global maximum. -/
theorem squine_period_and_extrema :
    (∀ a : ℤ, squine (a + 180) = squine a) ∧
    (∀ a : ℤ, squine (-a) = squine a) ∧
    squine 0 = ENNReal.ofReal (RAD_MAX_SAFE : ℝ) ∧
    squine 90 = ENNReal.ofReal (0.91 * Real.sqrt 2 * (RAD_MAX_SAFE : ℝ)) ∧
    (∀ a : ℤ, squine 0 ≤ squine a) ∧
    (∀ a : ℤ, squine a ≤ squine 90) := by
  refine ⟨squine_quarter_step, squine_reflect_step, squine_zero, squine_ninety,
    fun a => ?_, fun a => ?_⟩
  · rw [squine_zero]
    exact squineR_lower (squineTheta a)
  · rw [squine_ninety]
    exact squineR_upper (squineTheta a)

/-! ### The cartesian round trip -/

/-- C8 (counterexample): the round trip `polar_to_xy ∘ xy_to_polar` feeds the
angle that `xy_to_polar` returns in **degrees** straight into the
radian-interpreting `np.cos`/`np.sin` of `polar_to_xy`; at the input
(0, 7300) the angle is 90 (degrees), `sin 90` (radians) is below 0.8946, and
the returned y-coordinate misses 7300 by more than 100 steps — far beyond
any tolerance attributable to integer step quantization. -/
theorem roundtrip_misses_by_hundreds :
    100 < |(polar_to_xy (xy_to_polar 0 7300).1 (xy_to_polar 0 7300).2).2 - 7300| := by
  have hpair : xy_to_polar 0 7300 = (7300, 90) := by
    unfold xy_to_polar arctan2
    have h1 : Real.sqrt ((0:ℝ) ^ 2 + 7300 ^ 2) = 7300 := by
      rw [show ((0:ℝ) ^ 2 + 7300 ^ 2) = 7300 ^ 2 by norm_num]
      exact Real.sqrt_sq (by norm_num)
    have h2 : Complex.arg ⟨0, 7300⟩ = Real.pi / 2 := by
      have hmk : (⟨0, 7300⟩ : ℂ) = (7300 : ℝ) * Complex.I := by
        apply Complex.ext <;> simp
      rw [hmk, Complex.arg_real_mul _ (by norm_num : (0:ℝ) < 7300), Complex.arg_I]
    rw [h1, h2]
    have hπ : Real.pi ≠ 0 := Real.pi_ne_zero
    norm_num
    field_simp
    norm_num
  rw [hpair]
  unfold polar_to_xy
  simp only
  have hsin : Real.sin (90:ℝ) < 0.8946 := by
    have hcs : Real.sin (90:ℝ) = Real.cos ((90:ℝ) - Real.pi / 2) :=
      (Real.cos_sub_pi_div_two 90).symm
    obtain ⟨u, hu⟩ : ∃ u : ℝ, u = 90 - 57 * Real.pi / 2 := ⟨_, rfl⟩
    have hper : Real.cos ((90:ℝ) - Real.pi / 2) = Real.cos u := by
      rw [hu, show (90:ℝ) - Real.pi / 2 =
        (90 - 57 * Real.pi / 2) + (14 : ℤ) * (2 * Real.pi) by push_cast; ring]
      exact Real.cos_add_int_mul_two_pi _ 14
    have hπl := Real.pi_gt_d6
    have hπu := Real.pi_lt_d6
    have hu_lo : 0.4645 < u := by rw [hu]; linarith
    have hu_hi : u < 0.4647 := by rw [hu]; linarith
    have habs : |u| ≤ 1 := by
      rw [abs_le]; constructor <;> linarith
    have hcb := Real.cos_bound habs
    have hub : Real.cos u ≤ 1 - u ^ 2 / 2 + |u| ^ 4 * (5 / 96) := by
      linarith [(abs_le.mp hcb).2]
    have habsu : |u| = u := abs_of_pos (by linarith)
    rw [habsu] at hub
    have hu2lo : 0.2157 ≤ u ^ 2 := by nlinarith
    have hu2hi : u ^ 2 ≤ 0.21595 := by nlinarith
    have hu4 : u ^ 4 ≤ 0.04664 := by
      have h4 : u ^ 4 = (u ^ 2) ^ 2 := by ring
      rw [h4]
      nlinarith [sq_nonneg u]
    rw [hcs, hper]
    linarith
  have hs1 : Real.sin (90:ℝ) ≤ 1 := Real.sin_le_one 90
  rw [abs_of_nonpos (by nlinarith : 7300 * Real.sin (90:ℝ) - 7300 ≤ 0)]
  nlinarith

/-- C8 (amended): for every `(x, y)` other than the origin, the round trip
reproduces `(x, y)` **exactly** once the angle that `xy_to_polar` returns in
degrees is converted to radians before `polar_to_xy` consumes it (whereas
feeding the same numeric value in the degree unit directly, as the
composition of these two functions does, misses by far more than any
step-quantization tolerance — see the counterexample). -/
theorem roundtrip_exact_with_radian_conversion (x y : ℝ)
    (h : (x, y) ≠ ((0:ℝ), (0:ℝ))) :
    polar_to_xy (xy_to_polar x y).1
      (Real.pi / 180 * (xy_to_polar x y).2) = (x, y) := by
  have hz : (⟨x, y⟩ : ℂ) ≠ 0 := by
    intro hc
    apply h
    rw [Complex.ext_iff] at hc
    simp only [Complex.zero_re, Complex.zero_im] at hc
    rw [Prod.mk.injEq]
    exact ⟨hc.1, hc.2⟩
  unfold polar_to_xy xy_to_polar arctan2
  simp only
  have hπ : Real.pi ≠ 0 := Real.pi_ne_zero
  have harg : Real.pi / 180 * (180 / Real.pi * Complex.arg ⟨x, y⟩) =
      Complex.arg ⟨x, y⟩ := by
    field_simp
    ring
  have habs : Real.sqrt (x ^ 2 + y ^ 2) = Complex.abs ⟨x, y⟩ := by
    rw [Complex.abs_apply, Complex.normSq_mk]
    ring_nf
  have hne : Complex.abs ⟨x, y⟩ ≠ 0 := by
    simpa using hz
  rw [harg, habs, Complex.cos_arg hz, Complex.sin_arg]
  rw [Prod.mk.injEq]
  constructor <;> · field_simp

/-- Witness for the amended C8 round trip at the concrete point (3, 4). -/
theorem roundtrip_exact_witness :
    ((3:ℝ), (4:ℝ)) ≠ ((0:ℝ), (0:ℝ)) ∧
    polar_to_xy (xy_to_polar 3 4).1
      (Real.pi / 180 * (xy_to_polar 3 4).2) = ((3:ℝ), (4:ℝ)) :=
  ⟨by norm_num, roundtrip_exact_with_radian_conversion 3 4 (by norm_num)⟩
